import Mathlib

/-!
Verification of the `backend/app` WebSocket relay mediator.

This file gives a shallow embedding, in Lean, of the parts of the source that
the specification's claims are about:

* `backend/app/services/session_manager.py` — `TransferSession`,
  `SessionManager` (session registry, per-user connection counts, the idle
  sweeper `cleanup_stale_sessions`).
* `backend/app/api/endpoints/websocket.py` — `ws_transfer` (throttle check,
  capacity check, session creation, role dispatch, teardown) and the role
  handlers `handle_sender` / `handle_receiver` / `handle_peer` (rendezvous
  loop, binary relay, pause/resume, chat).
* `backend/app/main.py` — the `GET /api/health` handler.

Modelling conventions:

* Endpoint handles (WebSocket objects) are opaque `Nat` identifiers.
* Wall-clock instants are `Nat` seconds; `datetime.utcnow().isoformat()`
  results are passed in as opaque `String`s where only concatenation matters.
* Python `dict`s are association lists with first-occurrence lookup,
  in-place update of an existing key and append of a new key — exactly the
  observable behaviour of an insertion-ordered dict with distinct keys.
* Chat message text is `List Char` (a Python `str` is a sequence of code
  points, and truncation in the source is by characters, not bytes).
* The cooperative (asyncio) interleaving of handlers is modelled by event
  traces; each event is one of the source's atomic (await-free) regions.
-/

/-! ## Configuration constants (`backend/app/core/config.py`, default values) -/

def MAX_SESSIONS : Nat := 200

def MAX_MESSAGE_LENGTH : Nat := 5000

/-- `SESSION_TIMEOUT = timedelta(minutes=30)`, in seconds. -/
def SESSION_TIMEOUT : Nat := 1800

/-! ## Association-list model of Python dicts -/

/-- `d.get(k)` / `d[k]`: value at the first occurrence of key `k`. -/
def dictGet {κ α : Type} [DecidableEq κ] : List (κ × α) → κ → Option α
  | [], _ => none
  | p :: rest, k => if p.1 = k then some p.2 else dictGet rest k

/-- `d[k] = v`: replace the first occurrence of `k`, else append `(k, v)`. -/
def dictSet {κ α : Type} [DecidableEq κ] : List (κ × α) → κ → α → List (κ × α)
  | [], k, v => [(k, v)]
  | p :: rest, k, v => if p.1 = k then (k, v) :: rest else p :: dictSet rest k v

/-- `del d[k]` (guarded by `k in d`): drop the first occurrence of `k`. -/
def dictRemove {κ α : Type} [DecidableEq κ] : List (κ × α) → κ → List (κ × α)
  | [], _ => []
  | p :: rest, k => if p.1 = k then rest else p :: dictRemove rest k

/-- `connection_counts.get(user_id, 0)` — counts are Python ints. -/
def getCount (l : List (String × Int)) (u : String) : Int :=
  (dictGet l u).getD 0

/-! ## `TransferSession` (`session_manager.py`) -/

/-- One stored chat entry (the dict built by `TransferSession.add_message`). -/
structure ChatEntry where
  sender : String
  message : List Char
  timestamp : String
deriving DecidableEq, Repr

/-- One element of `session.peers`: `{'user_id': ..., 'websocket': ...}`. -/
structure PeerEntry where
  user_id : String
  endpoint : Nat
deriving DecidableEq, Repr

/-- `TransferSession.__init__`.  `peers` is grafted onto the object at first
peer attach in the source (`if not hasattr(session, 'peers')`); it is modelled
as an always-present list that starts empty, which is observationally the
same. -/
structure TransferSession where
  session_id : String
  metadata : List (String × String) := []
  sender : Option Nat := none
  receiver : Option Nat := none
  bytes_transferred : Nat := 0
  is_active : Bool := false
  start_time : Option Nat := none
  end_time : Option Nat := none
  created_at : Nat
  last_activity : Nat
  messages : List ChatEntry := []
  paused : Bool := false
  peers : List PeerEntry := []
deriving DecidableEq, Repr

/-- `TransferSession(session_id)` with all-default fields. -/
def newSession (sid : String) (now : Nat) : TransferSession :=
  { session_id := sid, created_at := now, last_activity := now }

/-- `update_activity(self)`: `self.last_activity = datetime.now()`. -/
def update_activity (s : TransferSession) (now : Nat) : TransferSession :=
  { s with last_activity := now }

/-- `add_message(self, sender, message)`: truncate to `MAX_MESSAGE_LENGTH`
characters, stamp with `datetime.utcnow().isoformat() + "Z"`, append, keep the
last 100 entries (`self.messages = self.messages[-100:]` when over), and
return the stored entry.  `utcnow` is the opaque ISO string produced by
`datetime.utcnow().isoformat()`. -/
def add_message (s : TransferSession) (sender : String) (message : List Char)
    (utcnow : String) : TransferSession × ChatEntry :=
  let msg_data : ChatEntry :=
    { sender := sender, message := message.take MAX_MESSAGE_LENGTH,
      timestamp := utcnow ++ "Z" }
  let msgs := s.messages ++ [msg_data]
  let msgs := if 100 < msgs.length then msgs.drop (msgs.length - 100) else msgs
  ({ s with messages := msgs }, msg_data)

/-! ## Session registry (`SessionManager`) -/

/-- `SessionManager.create_session`: insert a fresh session only when the id
is absent, then return the stored session. -/
def create_session (sessions : List (String × TransferSession)) (sid : String)
    (now : Nat) : List (String × TransferSession) × TransferSession :=
  match dictGet sessions sid with
  | some s => (sessions, s)
  | none => (sessions ++ [(sid, newSession sid now)], newSession sid now)

/-- `SessionManager.remove_session`: delete the id when present. -/
def remove_session (sessions : List (String × TransferSession)) (sid : String) :
    List (String × TransferSession) :=
  dictRemove sessions sid

/-! ## The idle sweeper (`SessionManager.cleanup_stale_sessions`, one pass) -/

/-- `now - session.last_activity > settings.SESSION_TIMEOUT`.  (With a
monotone clock `last_activity ≤ now`; Nat truncated subtraction agrees with
the Python timedelta comparison also when it is not, both giving `false`.) -/
def isStale (now : Nat) (s : TransferSession) : Bool :=
  decide (SESSION_TIMEOUT < now - s.last_activity)

/-- Endpoints the sweeper closes for a list of evicted sessions: the `sender`
and `receiver` slots only (the source never touches `peers` here). -/
def closedEndpoints : List (String × TransferSession) → List Nat
  | [] => []
  | p :: rest => p.2.sender.toList ++ p.2.receiver.toList ++ closedEndpoints rest

/-- The sweeper loop body for one stale id: `session = self.sessions.pop(sid,
None)`, and when it was present, best-effort close `session.sender` and
`session.receiver` (appended to the accumulated closed-endpoint list). -/
def sweep_evict (acc : List (String × TransferSession) × List Nat)
    (sid : String) : List (String × TransferSession) × List Nat :=
  match dictGet acc.1 sid with
  | some s =>
      (dictRemove acc.1 sid, acc.2 ++ s.sender.toList ++ s.receiver.toList)
  | none => acc

/-- One iteration of the sweeper body: snapshot the stale ids, then for each,
`pop` it and best-effort close `session.sender` and `session.receiver`.
Returns the new registry and the list of endpoint handles closed. -/
def cleanup_stale_sessions (sessions : List (String × TransferSession))
    (now : Nat) : List (String × TransferSession) × List Nat :=
  let stale := ((sessions.filter fun p => isStale now p.2).map Prod.fst)
  stale.foldl sweep_evict (sessions, [])

/-! ## Outbound frames (the JSON objects the server sends, fields the claims
mention; timestamps inside frames are elided) -/

inductive OutFrame where
  /-- A frame of the shape `status` plus `message` (all error frames). -/
  | statusFrame (status message : String)
  /-- The sender's initial waiting frame (carries the session id). -/
  | waitingFrame (session_id : String)
  /-- The sender's ready frame (carries `chat_history`). -/
  | readyFrame (chat_history : List ChatEntry)
  /-- A relayed chat frame (`type:"chat"` with the stored entry as data). -/
  | chatFrame (data : ChatEntry)
  /-- A relayed typing indicator. -/
  | typingFrame (sender : String)
  | pausedFrame
  | resumedFrame
  | transferCompleteFrame
deriving DecidableEq, Repr

/-! ## `ws_transfer` — connection entry (`websocket.py` lines 13-58)

The throttle check, the increment, the capacity check and `create_session`
run with no intervening `await`, so one connection's entry is a single atomic
region of the event loop. -/

inductive Role where
  | sender
  | receiver
  | peer
deriving DecidableEq, Repr

/-- The `mode` path parameter dispatch in `ws_transfer`. -/
def parseRole (mode : String) : Option Role :=
  if mode = "sender" then some .sender
  else if mode = "receiver" then some .receiver
  else if mode = "peer" then some .peer
  else none

/-- How a connection's `ws_transfer` entry ends.  For `tooManyConnections`,
`atCapacity` and `invalidMode` the connection is closed within the entry
itself (for `invalidMode` this includes the `finally` decrement); for
`dispatched` the role handler keeps running until a later disconnect. -/
inductive EntryOutcome where
  | tooManyConnections
  | atCapacity
  | invalidMode (mode : String)
  | dispatched (role : Role)
deriving DecidableEq, Repr

/-- Process-wide server state: the `SessionManager` singleton's two dicts,
plus (ghost) the admitted, still-running connection handlers as
`(connection id, user_id)` pairs. -/
structure ServerState where
  sessions : List (String × TransferSession) := []
  connection_counts : List (String × Int) := []
  openConns : List (Nat × String) := []
deriving DecidableEq, Repr

/-- `ws_transfer` from `accept()` up to (and including) role dispatch,
together with the frames sent to the connecting endpoint on its rejection
paths.  Mirrors the source line by line:
1. reject when `connection_counts.get(user_id, 0) >= 5` (no increment);
2. increment the count;
3. reject when `len(sessions) >= MAX_SESSIONS and session_id not in sessions`
   (send capacity error, decrement the count back);
4. `create_session(session_id)` then `session.update_activity()`;
5. dispatch on `mode`; an unknown mode sends the invalid-mode error and falls
   through to the `finally` decrement with the session left in the registry. -/
def ws_transfer_entry (st : ServerState) (session_id mode user_id : String)
    (cid : Nat) (now : Nat) : ServerState × EntryOutcome × List OutFrame :=
  if 5 ≤ getCount st.connection_counts user_id then
    (st, .tooManyConnections, [.statusFrame "error" "Too many connections"])
  else
    let counts1 := dictSet st.connection_counts user_id
      (getCount st.connection_counts user_id + 1)
    if MAX_SESSIONS ≤ st.sessions.length ∧ dictGet st.sessions session_id = none then
      ({ st with connection_counts :=
           dictSet counts1 user_id (getCount counts1 user_id - 1) },
       .atCapacity, [.statusFrame "error" "Server at capacity"])
    else
      let created := create_session st.sessions session_id now
      let s := update_activity created.2 now
      let sessions2 := dictSet created.1 session_id s
      match parseRole mode with
      | some r =>
          ({ st with
              connection_counts := counts1,
              sessions := sessions2,
              openConns := st.openConns ++ [(cid, user_id)] },
           .dispatched r, [])
      | none =>
          ({ st with
              connection_counts :=
                dictSet counts1 user_id (getCount counts1 user_id - 1),
              sessions := sessions2 },
           .invalidMode mode,
           [.statusFrame "error" ("Invalid mode: " ++ mode)])

/-- First user attached to connection id `cid` among the open handlers. -/
def connFind : List (Nat × String) → Nat → Option String
  | [], _ => none
  | p :: rest, cid => if p.1 = cid then some p.2 else connFind rest cid

/-- Remove the first entry for connection id `cid`. -/
def connRemove : List (Nat × String) → Nat → List (Nat × String)
  | [], _ => []
  | p :: rest, cid => if p.1 = cid then rest else p :: connRemove rest cid

/-- Number of open handler connections belonging to user `u`. -/
def countOpen : List (Nat × String) → String → Nat
  | [], _ => 0
  | p :: rest, u => (if p.2 = u then 1 else 0) + countOpen rest u

/-- A dispatched handler returning (normally or by exception): the
`finally` block of `ws_transfer` decrements the user's count exactly once.
`sessionCleanup` models the role handler's own teardown calling
`remove_session` (sender teardown; last peer departing).  A `cid` that is not
an open handler changes nothing. -/
def ws_disconnect (st : ServerState) (cid : Nat) (sessionCleanup : Option String) :
    ServerState :=
  match connFind st.openConns cid with
  | some uid =>
      { sessions := match sessionCleanup with
          | some sid => remove_session st.sessions sid
          | none => st.sessions,
        connection_counts := dictSet st.connection_counts uid
          (getCount st.connection_counts uid - 1),
        openConns := connRemove st.openConns cid }
  | none => st

/-- Events of the server-level trace machine: a connection arriving (one
atomic `ws_transfer` entry), a handler finishing, or one sweeper pass. -/
inductive ServerEvent where
  | connect (session_id mode user_id : String) (cid : Nat) (now : Nat)
  | disconnect (cid : Nat) (sessionCleanup : Option String)
  | sweep (now : Nat)
deriving DecidableEq, Repr

def server_step (st : ServerState) : ServerEvent → ServerState
  | .connect sid m uid cid now => (ws_transfer_entry st sid m uid cid now).1
  | .disconnect cid cl => ws_disconnect st cid cl
  | .sweep now => { st with sessions := (cleanup_stale_sessions st.sessions now).1 }

/-- Run a trace from the freshly started server (both dicts empty). -/
def server_run (es : List ServerEvent) : ServerState :=
  es.foldl server_step {}

/-! ## Binary relay and flow control (the streaming loops)

Each event is one loop iteration of the indicated handler processing one
received frame (or one pause/resume control frame from the sender). -/

/-- `handle_sender` on a binary frame (`websocket.py` lines 130-136):
`if "bytes" in data and not session.paused:` — while paused the whole block
is skipped (no counter, no activity, no forward); otherwise count the bytes,
update activity, and forward to the receiver when one is attached.  Returns
the session and the endpoints the chunk was forwarded to. -/
def sender_binary (s : TransferSession) (len now : Nat) :
    TransferSession × List Nat :=
  if s.paused then (s, [])
  else
    let s2 := { s with
      bytes_transferred := s.bytes_transferred + len,
      last_activity := now }
    (s2, s2.receiver.toList)

/-- `handle_peer` on a binary frame (`websocket.py` lines 218-229):
`if "bytes" in data:` — no pause check; count the bytes, update activity and
broadcast to every other peer. -/
def peer_binary (s : TransferSession) (uid : String) (len now : Nat) :
    TransferSession × List Nat :=
  let s2 := { s with
    bytes_transferred := s.bytes_transferred + len,
    last_activity := now }
  (s2, (s2.peers.filter fun p => p.user_id ≠ uid).map PeerEntry.endpoint)

/-- `handle_receiver` on a binary frame: the receiver loop only inspects
`"text" in data`, so a binary frame falls through untouched. -/
def receiver_binary (s : TransferSession) (_len : Nat) :
    TransferSession × List Nat :=
  (s, [])

/-- `handle_sender` on `{type:"pause"}`: `session.paused = True`. -/
def sender_pause (s : TransferSession) : TransferSession :=
  { s with paused := true }

/-- `handle_sender` on `{type:"resume"}`: `session.paused = False`. -/
def sender_resume (s : TransferSession) : TransferSession :=
  { s with paused := false }

/-- One streaming-loop iteration somewhere in the session, as seen by the
session state: a binary frame arriving at one of the three handlers, or the
sender toggling the pause flag. -/
inductive RelayEvent where
  | senderBinary (len now : Nat)
  | peerBinary (uid : String) (len now : Nat)
  | receiverBinary (len : Nat)
  | senderPause
  | senderResume
deriving DecidableEq, Repr

def relay_step (s : TransferSession) : RelayEvent → TransferSession
  | .senderBinary len now => (sender_binary s len now).1
  | .peerBinary uid len now => (peer_binary s uid len now).1
  | .receiverBinary len => (receiver_binary s len).1
  | .senderPause => sender_pause s
  | .senderResume => sender_resume s

def relay_run (s : TransferSession) (es : List RelayEvent) : TransferSession :=
  es.foldl relay_step s

/-- The bytes the code actually adds to `bytes_transferred` along a trace,
starting from pause flag `paused`: sender frames count exactly when the flag
is down at that moment, peer frames always count, receiver frames never. -/
def countedBytes (paused : Bool) : List RelayEvent → Nat
  | [] => 0
  | .senderBinary len _ :: es => (if paused then 0 else len) + countedBytes paused es
  | .peerBinary _ len _ :: es => len + countedBytes paused es
  | .receiverBinary _ :: es => countedBytes paused es
  | .senderPause :: es => countedBytes true es
  | .senderResume :: es => countedBytes false es

/-! ## `handle_sender` rendezvous (`websocket.py` lines 60-90)

The loop `while not session.receiver and (time.time() - start) < 300` is
modelled at whole-second granularity: `recv k` is the value of
`session.receiver` observed at the condition check after `k` one-second
sleeps (the receiver handler, running concurrently, is the environment that
sets it). -/

/-- The poll loop: returns the elapsed seconds at loop exit.  With `fuel`
seconds of budget left at `elapsed`, exit when the receiver is set, else
sleep one second (structurally: spend one unit of fuel) and re-check; fuel
running out is the `(time.time() - start) < timeout` conjunct failing at
`elapsed = 300`. -/
def rendezvous_poll (recv : Nat → Option Nat) : Nat → Nat → Nat
  | elapsed, 0 => elapsed
  | elapsed, fuel + 1 =>
    if (recv elapsed).isSome then elapsed
    else rendezvous_poll recv (elapsed + 1) fuel

/-- `handle_sender` from attach up to entering (or not entering) the
streaming loop: set `session.sender`, send the waiting frame, poll up to
300 s updating `last_activity` after each sleep, then either time out (send
the error frame, `remove_session`) or go ready (`is_active = True`,
`start_time = now`, send the ready frame carrying the chat history).  The
final `Bool` is whether the handler reached the streaming loop. -/
def handle_sender_wait (sessions : List (String × TransferSession))
    (sid : String) (s : TransferSession) (w : Nat) (recv : Nat → Option Nat)
    (start : Nat) :
    List (String × TransferSession) × TransferSession × List OutFrame × Bool :=
  let s0 := { s with sender := some w }
  let k := rendezvous_poll recv 0 300
  let s1 := if k = 0 then s0 else { s0 with last_activity := start + k }
  match recv k with
  | none =>
      (remove_session sessions sid, s1,
       [.waitingFrame sid, .statusFrame "error" "Receiver timeout"], false)
  | some r =>
      let s2 := { s1 with
        receiver := some r,
        is_active := true,
        start_time := some (start + k) }
      (dictSet sessions sid s2, s2,
       [.waitingFrame sid, .readyFrame s2.messages], true)

/-! ## Text control frames in the sender streaming loop (`websocket.py`
lines 94-127) and what a JSON parse failure does (C6)

`msg = json.loads(data["text"])` raises on a malformed frame.  The streaming
loop's `try` catches only `WebSocketDisconnect`, so the exception runs the
`finally` (teardown: `is_active = False`, `end_time`, best-effort
`transfer_complete` + close to the receiver, `remove_session`) and then
propagates into `ws_transfer`, whose `except` sends `{status:"error",
message:str(e)}` and whose `finally` closes the socket. -/

/-- A received text frame, after the `json.loads` attempt: `malformed`
carries `str(e)` of the parse error; the rest are the recognized `type`
values; `unknownType` is any other JSON object (ignored). -/
inductive TextMsg where
  | malformed (errMsg : String)
  | chatText (text : List Char)
  | typingText
  | pauseText
  | resumeText
  | pongText
  | unknownType
deriving DecidableEq, Repr

/-- Result of the sender handler consuming one text frame. -/
structure TextStepResult where
  sessions : List (String × TransferSession)
  handlerContinues : Bool
  connectionClosed : Bool
  framesToSender : List OutFrame
  framesToReceiver : List OutFrame
deriving DecidableEq, Repr

/-- One iteration of the sender streaming loop on a text frame, including —
on the malformed path — the teardown and the enclosing `ws_transfer` error
report.  `sid`/`s` are the session id and the registry's session (aliases in
the source); `now` is the clock, `utcnow` the opaque UTC ISO string. -/
def sender_on_text (sessions : List (String × TransferSession)) (sid : String)
    (s : TransferSession) (m : TextMsg) (now : Nat) (utcnow : String) :
    TextStepResult :=
  match m with
  | .malformed err =>
      { sessions := remove_session sessions sid,
        handlerContinues := false,
        connectionClosed := true,
        framesToSender := [.statusFrame "error" err],
        framesToReceiver :=
          match s.receiver with
          | some _ => [.transferCompleteFrame]
          | none => [] }
  | .chatText text =>
      let r := add_message s "sender" text utcnow
      let s2 := update_activity r.1 now
      { sessions := dictSet sessions sid s2,
        handlerContinues := true,
        connectionClosed := false,
        framesToSender := [],
        framesToReceiver :=
          match s2.receiver with
          | some _ => [.chatFrame r.2]
          | none => [] }
  | .typingText =>
      { sessions := dictSet sessions sid s,
        handlerContinues := true,
        connectionClosed := false,
        framesToSender := [],
        framesToReceiver :=
          match s.receiver with
          | some _ => [.typingFrame "sender"]
          | none => [] }
  | .pauseText =>
      let s2 := sender_pause s
      { sessions := dictSet sessions sid s2,
        handlerContinues := true,
        connectionClosed := false,
        framesToSender := [],
        framesToReceiver :=
          match s2.receiver with
          | some _ => [.pausedFrame]
          | none => [] }
  | .resumeText =>
      let s2 := sender_resume s
      { sessions := dictSet sessions sid s2,
        handlerContinues := true,
        connectionClosed := false,
        framesToSender := [],
        framesToReceiver :=
          match s2.receiver with
          | some _ => [.resumedFrame]
          | none => [] }
  | .pongText =>
      let s2 := update_activity s now
      { sessions := dictSet sessions sid s2,
        handlerContinues := true,
        connectionClosed := false,
        framesToSender := [],
        framesToReceiver := [] }
  | .unknownType =>
      { sessions := dictSet sessions sid s,
        handlerContinues := true,
        connectionClosed := false,
        framesToSender := [],
        framesToReceiver := [] }

/-! ## Attach operations (C7) -/

/-- `handle_sender` attach: `session.sender = websocket` — unconditional. -/
def sender_attach (s : TransferSession) (w : Nat) : TransferSession :=
  { s with sender := some w }

/-- `handle_receiver` attach: `session.receiver = websocket` then
`session.update_activity()` — unconditional. -/
def receiver_attach (s : TransferSession) (w now : Nat) : TransferSession :=
  { s with receiver := some w, last_activity := now }

/-- `handle_peer` attach (`websocket.py` lines 161-168):
`session.peers.append(...)` then `session.update_activity()` —
unconditional, with no check of the `sender`/`receiver` slots. -/
def peer_attach (s : TransferSession) (uid : String) (w now : Nat) :
    TransferSession :=
  { s with peers := s.peers ++ [⟨uid, w⟩], last_activity := now }

/-! ## `GET /api/health` (`main.py` lines 25-31) -/

/-- A JSON value, as far as the health payload needs. -/
inductive JsonValue where
  | jstr (s : String)
  | jnum (n : Int)
  | jobj (fields : List (String × JsonValue))
deriving Repr

/-- The body `health_check` returns: note the source fills the `timestamp`
field with `session_manager.connection_counts` (the per-user counts dict),
not a timestamp. -/
def health_check (sessions : List (String × TransferSession))
    (connection_counts : List (String × Int)) : List (String × JsonValue) :=
  [("status", .jstr "healthy"),
   ("sessions", .jnum sessions.length),
   ("timestamp", .jobj (connection_counts.map fun p => (p.1, .jnum p.2)))]

/-! ## Lemmas about the dict model -/

theorem dictGet_set_self {κ α : Type} [DecidableEq κ] (l : List (κ × α))
    (k : κ) (v : α) : dictGet (dictSet l k v) k = some v := by
  induction l with
  | nil => simp [dictGet, dictSet]
  | cons p rest ih =>
    by_cases h : p.1 = k
    · simp [dictSet, h, dictGet]
    · simp [dictSet, h, dictGet, ih]

theorem dictGet_set_ne {κ α : Type} [DecidableEq κ] (l : List (κ × α))
    (k k' : κ) (v : α) (h : k' ≠ k) :
    dictGet (dictSet l k v) k' = dictGet l k' := by
  induction l with
  | nil => simp [dictGet, dictSet, Ne.symm h]
  | cons p rest ih =>
    by_cases hp : p.1 = k
    · have hne : p.1 ≠ k' := by rw [hp]; exact Ne.symm h
      simp [dictSet, hp, dictGet, hne, Ne.symm h]
    · by_cases hq : p.1 = k'
      · simp [dictSet, hp, dictGet, hq, h]
      · simp [dictSet, hp, dictGet, hq, ih]

theorem getCount_set_self (l : List (String × Int)) (u : String) (v : Int) :
    getCount (dictSet l u v) u = v := by
  simp [getCount, dictGet_set_self]

theorem getCount_set_ne (l : List (String × Int)) (u u' : String) (v : Int)
    (h : u' ≠ u) : getCount (dictSet l u v) u' = getCount l u' := by
  simp [getCount, dictGet_set_ne l u u' v h]

theorem dictGet_append_of_isSome {κ α : Type} [DecidableEq κ]
    (l m : List (κ × α)) (k : κ) (h : (dictGet l k).isSome) :
    dictGet (l ++ m) k = dictGet l k := by
  induction l with
  | nil => simp [dictGet] at h
  | cons p rest ih =>
    by_cases hp : p.1 = k
    · simp [dictGet, hp]
    · simp [dictGet, hp] at h ⊢
      exact ih h

theorem dictGet_append_of_none {κ α : Type} [DecidableEq κ]
    (l m : List (κ × α)) (k : κ) (h : dictGet l k = none) :
    dictGet (l ++ m) k = dictGet m k := by
  induction l with
  | nil => simp
  | cons p rest ih =>
    by_cases hp : p.1 = k
    · simp [dictGet, hp] at h
    · simp [dictGet, hp] at h ⊢
      exact ih h

theorem dictGet_eq_none_iff {κ α : Type} [DecidableEq κ]
    (l : List (κ × α)) (k : κ) :
    dictGet l k = none ↔ k ∉ l.map Prod.fst := by
  induction l with
  | nil => simp [dictGet]
  | cons p rest ih =>
    by_cases hp : p.1 = k
    · simp [dictGet, hp]
    · simp [dictGet, hp, ih, Ne.symm hp]

theorem length_dictSet_of_isSome {κ α : Type} [DecidableEq κ]
    (l : List (κ × α)) (k : κ) (v : α) (h : (dictGet l k).isSome) :
    (dictSet l k v).length = l.length := by
  induction l with
  | nil => simp [dictGet] at h
  | cons p rest ih =>
    by_cases hp : p.1 = k
    · simp [dictSet, hp]
    · simp [dictGet, hp] at h
      simp [dictSet, hp, ih h]

theorem dictSet_of_none {κ α : Type} [DecidableEq κ]
    (l : List (κ × α)) (k : κ) (v : α) (h : dictGet l k = none) :
    dictSet l k v = l ++ [(k, v)] := by
  induction l with
  | nil => simp [dictSet]
  | cons p rest ih =>
    by_cases hp : p.1 = k
    · simp [dictGet, hp] at h
    · simp [dictGet, hp] at h
      simp [dictSet, hp, ih h]

theorem keys_dictSet_of_isSome {κ α : Type} [DecidableEq κ]
    (l : List (κ × α)) (k : κ) (v : α) (h : (dictGet l k).isSome) :
    (dictSet l k v).map Prod.fst = l.map Prod.fst := by
  induction l with
  | nil => simp [dictGet] at h
  | cons p rest ih =>
    by_cases hp : p.1 = k
    · simp [dictSet, hp]
    · simp [dictGet, hp] at h
      simp [dictSet, hp, ih h]

theorem dictSet_append_self {κ α : Type} [DecidableEq κ]
    (l : List (κ × α)) (k : κ) (v v' : α) (h : dictGet l k = none) :
    dictSet (l ++ [(k, v)]) k v' = l ++ [(k, v')] := by
  induction l with
  | nil => simp [dictSet]
  | cons p rest ih =>
    by_cases hp : p.1 = k
    · simp [dictGet, hp] at h
    · simp [dictGet, hp] at h
      simp [dictSet, hp, ih h]

theorem length_dictRemove_le {κ α : Type} [DecidableEq κ]
    (l : List (κ × α)) (k : κ) : (dictRemove l k).length ≤ l.length := by
  induction l with
  | nil => simp [dictRemove]
  | cons p rest ih =>
    by_cases hp : p.1 = k
    · simp [dictRemove, hp]
    · simp only [dictRemove, hp, if_false, List.length_cons]
      omega

theorem dictGet_remove_ne {κ α : Type} [DecidableEq κ]
    (l : List (κ × α)) (k k' : κ) (h : k' ≠ k) :
    dictGet (dictRemove l k) k' = dictGet l k' := by
  induction l with
  | nil => simp [dictRemove]
  | cons p rest ih =>
    by_cases hp : p.1 = k
    · have hne : p.1 ≠ k' := by rw [hp]; exact Ne.symm h
      simp [dictRemove, hp, dictGet, hne, Ne.symm h]
    · by_cases hq : p.1 = k'
      · simp [dictRemove, hp, dictGet, hq, h]
      · simp [dictRemove, hp, dictGet, hq, ih]

theorem dictGet_remove_self {κ α : Type} [DecidableEq κ]
    (l : List (κ × α)) (k : κ) (h : (l.map Prod.fst).Nodup) :
    dictGet (dictRemove l k) k = none := by
  induction l with
  | nil => simp [dictRemove, dictGet]
  | cons p rest ih =>
    simp only [List.map_cons, List.nodup_cons] at h
    by_cases hp : p.1 = k
    · rw [dictGet_eq_none_iff]
      simp only [dictRemove, hp, if_true]
      rw [← hp]
      exact h.1
    · simp [dictRemove, hp, dictGet, ih h.2]

/-! ## Lemmas about open-connection counting -/

theorem countOpen_append (l : List (Nat × String)) (cid : Nat) (u v : String) :
    countOpen (l ++ [(cid, u)]) v = countOpen l v + (if u = v then 1 else 0) := by
  induction l with
  | nil => simp [countOpen]
  | cons p rest ih =>
    rw [List.cons_append]
    simp only [countOpen]
    rw [ih]
    omega

theorem connFind_countOpen (l : List (Nat × String)) (cid : Nat) (u : String)
    (h : connFind l cid = some u) :
    countOpen (connRemove l cid) u + 1 = countOpen l u := by
  induction l with
  | nil => simp [connFind] at h
  | cons p rest ih =>
    by_cases hp : p.1 = cid
    · simp only [connFind, hp, if_true, Option.some.injEq] at h
      simp only [connRemove, hp, if_true, countOpen, h, if_pos]
      omega
    · simp only [connFind, hp, if_false] at h
      simp only [connRemove, hp, if_false, countOpen]
      rw [← ih h]
      omega

theorem connFind_countOpen_ne (l : List (Nat × String)) (cid : Nat)
    (u v : String) (h : connFind l cid = some u) (hv : v ≠ u) :
    countOpen (connRemove l cid) v = countOpen l v := by
  induction l with
  | nil => simp [connFind] at h
  | cons p rest ih =>
    by_cases hp : p.1 = cid
    · simp only [connFind, hp, if_true, Option.some.injEq] at h
      have : ¬ p.2 = v := by rw [h]; exact Ne.symm hv
      simp [connRemove, hp, countOpen, this]
    · simp only [connFind, hp, if_false] at h
      simp [connRemove, hp, countOpen, ih h]

/-! ## The throttle bookkeeping invariant (C2) -/

/-- The per-user counter always equals the number of admitted, still-running
handlers of that user. -/
def ThrottleInv (st : ServerState) : Prop :=
  ∀ u, getCount st.connection_counts u = (countOpen st.openConns u : Int)

theorem throttleInv_entry (st : ServerState) (sid m uid : String) (cid now : Nat)
    (h : ThrottleInv st) :
    ThrottleInv (ws_transfer_entry st sid m uid cid now).1 := by
  intro u
  by_cases h5 : 5 ≤ getCount st.connection_counts uid
  · simp only [ws_transfer_entry, h5, if_true]
    exact h u
  · by_cases hcap : MAX_SESSIONS ≤ st.sessions.length ∧ dictGet st.sessions sid = none
    · simp only [ws_transfer_entry, h5, if_false, hcap, and_self, if_true]
      by_cases hu : u = uid
      · subst hu
        simp only [getCount_set_self]
        rw [h u]
        omega
      · simp only [getCount_set_ne _ _ _ _ hu]
        exact h u
    · cases hrole : parseRole m with
      | some r =>
        simp only [ws_transfer_entry, h5, if_false, hcap, if_false, hrole]
        by_cases hu : u = uid
        · subst hu
          rw [getCount_set_self, countOpen_append, h u]
          simp
        · rw [getCount_set_ne _ _ _ _ hu, countOpen_append, h u]
          simp [Ne.symm hu]
      | none =>
        simp only [ws_transfer_entry, h5, if_false, hcap, if_false, hrole]
        by_cases hu : u = uid
        · subst hu
          simp only [getCount_set_self]
          rw [h u]
          omega
        · simp only [getCount_set_ne _ _ _ _ hu]
          exact h u

theorem throttleInv_disconnect (st : ServerState) (cid : Nat)
    (cl : Option String) (h : ThrottleInv st) :
    ThrottleInv (ws_disconnect st cid cl) := by
  intro u
  cases hf : connFind st.openConns cid with
  | none => simp only [ws_disconnect, hf]; exact h u
  | some uid =>
    simp only [ws_disconnect, hf]
    by_cases hu : u = uid
    · subst hu
      rw [getCount_set_self, h u, ← connFind_countOpen st.openConns cid u hf]
      push_cast
      omega
    · rw [getCount_set_ne _ _ _ _ hu,
        connFind_countOpen_ne st.openConns cid uid u hf hu]
      exact h u

theorem throttleInv_step (st : ServerState) (e : ServerEvent)
    (h : ThrottleInv st) : ThrottleInv (server_step st e) := by
  cases e with
  | connect sid m uid cid now => exact throttleInv_entry st sid m uid cid now h
  | disconnect cid cl => exact throttleInv_disconnect st cid cl h
  | sweep now => intro u; exact h u

theorem throttleInv_run (es : List ServerEvent) : ThrottleInv (server_run es) := by
  have base : ThrottleInv ({} : ServerState) := by
    intro u
    simp [getCount, dictGet, countOpen]
  rw [server_run]
  generalize hst : ({} : ServerState) = st at base
  clear hst
  induction es generalizing st with
  | nil => exact base
  | cons e es ih => exact ih (server_step st e) (throttleInv_step st e base)

/-! ## The registry capacity bound (C3) -/

theorem sweep_evict_fst_length_le (acc : List (String × TransferSession) × List Nat)
    (sid : String) : (sweep_evict acc sid).1.length ≤ acc.1.length := by
  unfold sweep_evict
  cases hg : dictGet acc.1 sid with
  | none => simp
  | some s => simpa using length_dictRemove_le acc.1 sid

theorem sweep_fold_fst_length_le (ids : List String)
    (acc : List (String × TransferSession) × List Nat) :
    (ids.foldl sweep_evict acc).1.length ≤ acc.1.length := by
  induction ids generalizing acc with
  | nil => simp
  | cons i ids ih =>
    calc ((ids.foldl sweep_evict (sweep_evict acc i)).1).length
        ≤ (sweep_evict acc i).1.length := ih (sweep_evict acc i)
      _ ≤ acc.1.length := sweep_evict_fst_length_le acc i

theorem cleanup_length_le (sessions : List (String × TransferSession)) (now : Nat) :
    (cleanup_stale_sessions sessions now).1.length ≤ sessions.length := by
  unfold cleanup_stale_sessions
  exact sweep_fold_fst_length_le _ _

/-- The registry size never exceeds `MAX_SESSIONS`. -/
def SessionsBound (st : ServerState) : Prop :=
  st.sessions.length ≤ MAX_SESSIONS

theorem sessionsBound_entry (st : ServerState) (sid m uid : String)
    (cid now : Nat) (h : SessionsBound st) :
    SessionsBound (ws_transfer_entry st sid m uid cid now).1 := by
  by_cases h5 : 5 ≤ getCount st.connection_counts uid
  · simp only [ws_transfer_entry, h5, if_true]
    exact h
  · by_cases hcap : MAX_SESSIONS ≤ st.sessions.length ∧ dictGet st.sessions sid = none
    · simp only [ws_transfer_entry, h5, if_false, hcap, and_self, if_true]
      exact h
    · have hlen : (dictSet (create_session st.sessions sid now).1 sid
          (update_activity (create_session st.sessions sid now).2 now)).length
          ≤ MAX_SESSIONS := by
        cases hg : dictGet st.sessions sid with
        | some s0 =>
          simp only [create_session, hg]
          rw [length_dictSet_of_isSome]
          · exact h
          · rw [hg]; rfl
        | none =>
          have hfresh : ¬ MAX_SESSIONS ≤ st.sessions.length := by
            intro hle
            exact hcap ⟨hle, hg⟩
          simp only [create_session, hg]
          rw [length_dictSet_of_isSome]
          · simp only [List.length_append, List.length_cons, List.length_nil]
            omega
          · rw [dictGet_append_of_none _ _ _ hg]
            simp [dictGet]
      cases hrole : parseRole m with
      | some r =>
        simp only [ws_transfer_entry, h5, if_false, hcap, if_false, hrole]
        exact hlen
      | none =>
        simp only [ws_transfer_entry, h5, if_false, hcap, if_false, hrole]
        exact hlen

theorem sessionsBound_step (st : ServerState) (e : ServerEvent)
    (h : SessionsBound st) : SessionsBound (server_step st e) := by
  cases e with
  | connect sid m uid cid now => exact sessionsBound_entry st sid m uid cid now h
  | disconnect cid cl =>
    simp only [server_step, ws_disconnect]
    cases hf : connFind st.openConns cid with
    | none => simpa [hf] using h
    | some uid =>
      cases cl with
      | none => simpa [hf] using h
      | some sid =>
        simp only [hf, SessionsBound, remove_session]
        calc (dictRemove st.sessions sid).length
            ≤ st.sessions.length := length_dictRemove_le _ _
          _ ≤ MAX_SESSIONS := h
  | sweep now =>
    simp only [server_step, SessionsBound]
    calc (cleanup_stale_sessions st.sessions now).1.length
        ≤ st.sessions.length := cleanup_length_le _ _
      _ ≤ MAX_SESSIONS := h

theorem sessionsBound_run (es : List ServerEvent) : SessionsBound (server_run es) := by
  have base : SessionsBound ({} : ServerState) := by
    simp [SessionsBound, MAX_SESSIONS]
  rw [server_run]
  generalize hst : ({} : ServerState) = st at base
  clear hst
  induction es generalizing st with
  | nil => exact base
  | cons e es ih => exact ih (server_step st e) (sessionsBound_step st e base)

/-! ## Characterizing one sweeper pass (C8, C10) -/

theorem sweep_fold_cons (ids : List String) (p : String × TransferSession)
    (acc : List (String × TransferSession)) (cs : List Nat) (h : p.1 ∉ ids) :
    ids.foldl sweep_evict (p :: acc, cs) =
      (p :: (ids.foldl sweep_evict (acc, cs)).1,
       (ids.foldl sweep_evict (acc, cs)).2) := by
  induction ids generalizing acc cs with
  | nil => simp
  | cons i ids ih =>
    simp only [List.mem_cons, not_or] at h
    have hne : ¬ p.1 = i := h.1
    simp only [List.foldl_cons]
    have hstep : sweep_evict (p :: acc, cs) i =
        (p :: (sweep_evict (acc, cs) i).1, (sweep_evict (acc, cs) i).2) := by
      simp only [sweep_evict, dictGet, dictRemove, hne, if_false]
      cases hg : dictGet acc i with
      | none => simp
      | some s => simp
    rw [hstep]
    have := ih (sweep_evict (acc, cs) i).1 (sweep_evict (acc, cs) i).2 h.2
    simpa using this

theorem sweep_fold_spec (now : Nat) (l : List (String × TransferSession))
    (cs : List Nat) (h : (l.map Prod.fst).Nodup) :
    ((l.filter fun p => isStale now p.2).map Prod.fst).foldl sweep_evict (l, cs) =
      (l.filter fun p => !(isStale now p.2),
       cs ++ closedEndpoints (l.filter fun p => isStale now p.2)) := by
  induction l generalizing cs with
  | nil => simp [closedEndpoints]
  | cons p rest ih =>
    simp only [List.map_cons, List.nodup_cons] at h
    by_cases hs : isStale now p.2
    · simp only [List.filter_cons, hs, if_true, Bool.not_true,
        Bool.false_eq_true, if_false, List.map_cons, List.foldl_cons]
      have hstep : sweep_evict (p :: rest, cs) p.1 =
          (rest, cs ++ p.2.sender.toList ++ p.2.receiver.toList) := by
        simp [sweep_evict, dictGet, dictRemove]
      rw [hstep, ih _ h.2]
      simp [closedEndpoints, List.append_assoc]
    · have hs' : isStale now p.2 = false := by simpa using hs
      simp only [List.filter_cons, hs', Bool.false_eq_true, if_false,
        Bool.not_false, if_true]
      have hnotin : p.1 ∉ ((rest.filter fun q => isStale now q.2).map Prod.fst) := by
        intro hmem
        exact h.1 (List.map_subset Prod.fst (List.filter_sublist _).subset hmem)
      rw [sweep_fold_cons _ _ _ _ hnotin, ih cs h.2]

theorem cleanup_spec (sessions : List (String × TransferSession)) (now : Nat)
    (h : (sessions.map Prod.fst).Nodup) :
    cleanup_stale_sessions sessions now =
      (sessions.filter fun p => !(isStale now p.2),
       closedEndpoints (sessions.filter fun p => isStale now p.2)) := by
  unfold cleanup_stale_sessions
  have := sweep_fold_spec now sessions [] h
  simpa using this

theorem dictGet_filter_of_none {κ α : Type} [DecidableEq κ] (q : α → Bool)
    (l : List (κ × α)) (k : κ) (h : dictGet l k = none) :
    dictGet (l.filter fun p => q p.2) k = none := by
  induction l with
  | nil => simpa using h
  | cons p rest ih =>
    by_cases hp : p.1 = k
    · simp [dictGet, hp] at h
    · simp only [dictGet, hp, if_false] at h
      cases hq : q p.2 with
      | true =>
        simp only [List.filter_cons, hq, if_true, dictGet, hp, if_false]
        exact ih h
      | false =>
        simp only [List.filter_cons, hq, Bool.false_eq_true, if_false]
        exact ih h

theorem dictGet_filter_of_some {κ α : Type} [DecidableEq κ] (q : α → Bool)
    (l : List (κ × α)) (k : κ) (s : α) (hnd : (l.map Prod.fst).Nodup)
    (h : dictGet l k = some s) :
    dictGet (l.filter fun p => q p.2) k = if q s then some s else none := by
  induction l with
  | nil => simp [dictGet] at h
  | cons p rest ih =>
    simp only [List.map_cons, List.nodup_cons] at hnd
    by_cases hp : p.1 = k
    · simp only [dictGet, hp, if_true, Option.some.injEq] at h
      subst h
      have hnone : dictGet rest k = none := by
        rw [dictGet_eq_none_iff]
        rw [← hp]
        exact hnd.1
      cases hq : q p.2 with
      | true =>
        simp only [List.filter_cons, hq, if_true, dictGet, hp]
      | false =>
        simp only [List.filter_cons, hq, Bool.false_eq_true, if_false]
        exact dictGet_filter_of_none q rest k hnone
    · simp only [dictGet, hp, if_false] at h
      cases hq : q p.2 with
      | true =>
        simp only [List.filter_cons, hq, if_true, dictGet, hp, if_false]
        exact ih hnd.2 h
      | false =>
        simp only [List.filter_cons, hq, Bool.false_eq_true, if_false]
        exact ih hnd.2 h

theorem mem_closedEndpoints (e : Nat) (l : List (String × TransferSession))
    (h : e ∈ closedEndpoints l) :
    ∃ p ∈ l, p.2.sender = some e ∨ p.2.receiver = some e := by
  induction l with
  | nil => simp [closedEndpoints] at h
  | cons p rest ih =>
    simp only [closedEndpoints, List.mem_append] at h
    rcases h with (hs | hr) | hrest
    · exact ⟨p, List.mem_cons_self p rest, Or.inl (by simpa using hs)⟩
    · exact ⟨p, List.mem_cons_self p rest, Or.inr (by simpa using hr)⟩
    · obtain ⟨q, hq, hor⟩ := ih hrest
      exact ⟨q, List.mem_cons_of_mem p hq, hor⟩

/-! ## Rendezvous-loop lemmas (C5) -/

theorem rendezvous_poll_of_none (recv : Nat → Option Nat) (fuel elapsed : Nat)
    (h : ∀ j, elapsed ≤ j → j < elapsed + fuel → recv j = none) :
    rendezvous_poll recv elapsed fuel = elapsed + fuel := by
  induction fuel generalizing elapsed with
  | zero => simp [rendezvous_poll]
  | succ fuel ih =>
    have h0 : recv elapsed = none := h elapsed le_rfl (by omega)
    simp only [rendezvous_poll, h0, Option.isSome_none, Bool.false_eq_true, if_false]
    have := ih (elapsed + 1) (fun j hj1 hj2 => h j (by omega) (by omega))
    omega

theorem rendezvous_poll_first (recv : Nat → Option Nat) (fuel elapsed k : Nat)
    (hlo : elapsed ≤ k) (hhi : k ≤ elapsed + fuel)
    (hnone : ∀ j, elapsed ≤ j → j < k → recv j = none)
    (hsome : (recv k).isSome) :
    rendezvous_poll recv elapsed fuel = k := by
  induction fuel generalizing elapsed with
  | zero =>
    have : elapsed = k := by omega
    simpa [rendezvous_poll] using this
  | succ fuel ih =>
    by_cases he : elapsed = k
    · subst he
      simp only [rendezvous_poll, hsome, if_true]
    · have hlt : elapsed < k := by omega
      have h0 : recv elapsed = none := hnone elapsed le_rfl hlt
      simp only [rendezvous_poll, h0, Option.isSome_none, Bool.false_eq_true, if_false]
      exact ih (elapsed + 1) (by omega) (by omega)
        (fun j hj1 hj2 => hnone j (by omega) hj2)

/-! ## Relay-trace accounting (C1) -/

theorem relay_run_bytes (s : TransferSession) (es : List RelayEvent) :
    (relay_run s es).bytes_transferred =
      s.bytes_transferred + countedBytes s.paused es := by
  induction es generalizing s with
  | nil => simp [relay_run, countedBytes]
  | cons e es ih =>
    have hrun : relay_run s (e :: es) = relay_run (relay_step s e) es := by
      simp [relay_run]
    rw [hrun]
    cases e with
    | senderBinary len now =>
      by_cases hp : s.paused
      · have hstep : relay_step s (.senderBinary len now) = s := by
          simp [relay_step, sender_binary, hp]
        rw [hstep, ih]
        simp [countedBytes, hp]
      · have hstep : relay_step s (.senderBinary len now) =
            { s with
                bytes_transferred := s.bytes_transferred + len,
                last_activity := now } := by
          simp [relay_step, sender_binary, hp]
        rw [hstep, ih]
        simp only [countedBytes, hp, Bool.false_eq_true, if_false]
        omega
    | peerBinary uid len now =>
      have hstep : relay_step s (.peerBinary uid len now) =
          { s with
              bytes_transferred := s.bytes_transferred + len,
              last_activity := now } := by
        simp [relay_step, peer_binary]
      rw [hstep, ih]
      simp only [countedBytes]
      omega
    | receiverBinary len =>
      have hstep : relay_step s (.receiverBinary len) = s := by
        simp [relay_step, receiver_binary]
      rw [hstep, ih]
      simp [countedBytes]
    | senderPause =>
      have hstep : relay_step s .senderPause = { s with paused := true } := by
        simp [relay_step, sender_pause]
      rw [hstep, ih]
      simp [countedBytes]
    | senderResume =>
      have hstep : relay_step s .senderResume = { s with paused := false } := by
        simp [relay_step, sender_resume]
      rw [hstep, ih]
      simp [countedBytes]

/-! ## The claims -/

/-- Claim C1, counterexample.  The claim says a binary frame received from
ANY endpoint while `session.paused` is true is dropped: not forwarded and not
counted.  Concretely: a session with `paused = true` and peers A (endpoint 1)
and B (endpoint 2) receives a 3-byte binary frame from peer A; the code adds
3 to `bytes_transferred` and forwards the chunk to endpoint 2 — the peer
loop's `if "bytes" in data:` never consults `paused`. -/
theorem C1_counterexample :
    (peer_binary
      { newSession "p" 0 with paused := true, peers := [⟨"A", 1⟩, ⟨"B", 2⟩] }
      "A" 3 5).1.bytes_transferred = 3
    ∧ (peer_binary
      { newSession "p" 0 with paused := true, peers := [⟨"A", 1⟩, ⟨"B", 2⟩] }
      "A" 3 5).2 = [2] := by
  constructor
  · rfl
  · decide

/-- Claim C1 as amended: pausing suppresses only the SENDER path.  Along any
interleaving of binary frames and pause/resume toggles, `bytes_transferred`
grows by exactly the sender-frame bytes that arrive while not paused plus ALL
peer-frame bytes (`handle_peer` ignores `paused`); binary frames from the
receiver are ignored outright.  A sender binary frame arriving while paused
is dropped completely: no state change and no forwarding. -/
theorem C1_amended :
    (∀ (s : TransferSession) (es : List RelayEvent),
      (relay_run s es).bytes_transferred =
        s.bytes_transferred + countedBytes s.paused es)
    ∧ (∀ (s : TransferSession) (len now : Nat),
        s.paused = true → sender_binary s len now = (s, []))
    ∧ (∀ (s : TransferSession) (uid : String) (len now : Nat),
        (peer_binary s uid len now).1.bytes_transferred =
          s.bytes_transferred + len
        ∧ (peer_binary s uid len now).2 =
            (s.peers.filter fun p => p.user_id ≠ uid).map PeerEntry.endpoint)
    ∧ (∀ (s : TransferSession) (len : Nat),
        receiver_binary s len = (s, [])) := by
  refine ⟨relay_run_bytes, ?_, ?_, fun s len => rfl⟩
  · intro s len now h
    simp [sender_binary, h]
  · intro s uid len now
    exact ⟨rfl, rfl⟩

/-- Witness for the amended C1 at concrete inputs: starting paused, a 4-byte
sender frame is dropped, a 3-byte peer frame counts, and after a resume a
2-byte sender frame counts, totalling 5. -/
theorem C1_amended_witness :
    (relay_run { newSession "w" 0 with paused := true }
      [.senderBinary 4 1, .peerBinary "A" 3 2, .senderResume,
       .senderBinary 2 3]).bytes_transferred = 5
    ∧ sender_binary { newSession "w" 0 with paused := true } 4 1 =
        ({ newSession "w" 0 with paused := true }, []) := by
  constructor
  · rw [C1_amended.1 { newSession "w" 0 with paused := true }
      [.senderBinary 4 1, .peerBinary "A" 3 2, .senderResume,
       .senderBinary 2 3]]
    decide
  · exact C1_amended.2.1 { newSession "w" 0 with paused := true } 4 1 rfl

/-- Claim C4: `add_message` stores and returns an entry whose `message` is the
text truncated to at most `MAX_MESSAGE_LENGTH` characters and whose timestamp
is the UTC ISO string with a trailing Z; the entry is appended newest-last;
the oldest entries are evicted so the log stays at ≤ 100 entries; the
survivors keep insertion order (the new log is a suffix of the old log plus
the new entry). -/
theorem C4_add_message (s : TransferSession) (tag : String) (text : List Char)
    (utcnow : String) :
    (add_message s tag text utcnow).2 =
      { sender := tag, message := text.take MAX_MESSAGE_LENGTH,
        timestamp := utcnow ++ "Z" }
    ∧ (add_message s tag text utcnow).2.message.length ≤ MAX_MESSAGE_LENGTH
    ∧ (add_message s tag text utcnow).1.messages.getLast? =
        some (add_message s tag text utcnow).2
    ∧ (add_message s tag text utcnow).1.messages <:+
        s.messages ++ [(add_message s tag text utcnow).2]
    ∧ (s.messages.length ≤ 100 →
        (add_message s tag text utcnow).1.messages.length =
          min (s.messages.length + 1) 100) := by
  refine ⟨rfl, ?_, ?_, ?_, ?_⟩
  · show (text.take MAX_MESSAGE_LENGTH).length ≤ MAX_MESSAGE_LENGTH
    rw [List.length_take]
    exact Nat.min_le_left _ _
  · simp only [add_message]
    by_cases h100 : 100 < (s.messages ++
        [({ sender := tag, message := text.take MAX_MESSAGE_LENGTH,
            timestamp := utcnow ++ "Z" } : ChatEntry)]).length
    · simp only [h100, if_true]
      rw [List.drop_append_of_le_length (by
        simp only [List.length_append, List.length_cons, List.length_nil] at h100 ⊢
        omega)]
      exact List.getLast?_concat _
    · simp only [h100, if_false]
      exact List.getLast?_concat _
  · simp only [add_message]
    by_cases h100 : 100 < (s.messages ++
        [({ sender := tag, message := text.take MAX_MESSAGE_LENGTH,
            timestamp := utcnow ++ "Z" } : ChatEntry)]).length
    · simp only [h100, if_true]
      exact List.drop_suffix _ _
    · simp only [h100, if_false]
      exact List.suffix_refl _
  · intro hlen
    simp only [add_message]
    by_cases h100 : 100 < (s.messages ++
        [({ sender := tag, message := text.take MAX_MESSAGE_LENGTH,
            timestamp := utcnow ++ "Z" } : ChatEntry)]).length
    · simp only [h100, if_true, List.length_drop]
      simp only [List.length_append, List.length_cons, List.length_nil] at h100 ⊢
      omega
    · simp only [h100, if_false]
      simp only [List.length_append, List.length_cons, List.length_nil] at h100 ⊢
      omega

/-- Witness for C4 at a concrete input: adding "hi" to an empty log yields a
one-entry log. -/
theorem C4_add_message_witness :
    (add_message (newSession "c" 0) "sender" ['h', 'i'] "T").1.messages.length = 1 := by
  have h := (C4_add_message (newSession "c" 0) "sender" ['h', 'i'] "T").2.2.2.2
    (by decide)
  rw [h]
  decide

/-- Claim C7, counterexample.  The claim says the first endpoint's role locks
the session's mode, and sender/receiver slots are never populated at the same
time as `peers`.  Concretely: a sender (endpoint 1) attaches to the fresh
session "x", then a peer B (endpoint 2) attaches to the same session — both
attaches are unconditional in the code, and afterwards `sender` is set AND
`peers` is non-empty. -/
theorem C7_counterexample :
    (peer_attach (sender_attach (newSession "x" 0) 1) "B" 2 3).sender = some 1
    ∧ (peer_attach (sender_attach (newSession "x" 0) 1) "B" 2 3).peers =
        [⟨"B", 2⟩] := by
  exact ⟨rfl, rfl⟩

/-- Claim C7 as amended: the code enforces no mode lock.  Every attach
operation is unconditional — attaching a peer never inspects or clears the
`sender`/`receiver` slots and vice versa — so a session can simultaneously
hold a sender/receiver and a non-empty `peers` list. -/
theorem C7_amended :
    ∀ (s : TransferSession) (w w2 now : Nat) (uid : String),
      (peer_attach s uid w2 now).sender = s.sender
      ∧ (peer_attach s uid w2 now).receiver = s.receiver
      ∧ (peer_attach s uid w2 now).peers = s.peers ++ [⟨uid, w2⟩]
      ∧ (sender_attach s w).peers = s.peers
      ∧ (sender_attach s w).sender = some w
      ∧ (receiver_attach s w now).peers = s.peers
      ∧ (peer_attach (sender_attach s w) uid w2 now).sender = some w
      ∧ (peer_attach (sender_attach s w) uid w2 now).peers ≠ [] := by
  intro s w w2 now uid
  refine ⟨rfl, rfl, rfl, rfl, rfl, rfl, rfl, ?_⟩
  simp [peer_attach, sender_attach]

/-- Witness for the amended C7 at concrete inputs. -/
theorem C7_amended_witness :
    (peer_attach (sender_attach (newSession "y" 0) 5) "Q" 6 7).sender = some 5
    ∧ (peer_attach (sender_attach (newSession "y" 0) 5) "Q" 6 7).peers ≠ [] := by
  exact ⟨(C7_amended (newSession "y" 0) 5 6 7 "Q").2.2.2.2.2.2.1,
    (C7_amended (newSession "y" 0) 5 6 7 "Q").2.2.2.2.2.2.2⟩

/-- Claim C9: the health payload's `status` and `sessions` fields are as
claimed, but the code sets `timestamp` to `session_manager.connection_counts`
(a user-to-count JSON object), never an ISO-8601 string — contradicting the
repo's own `HealthCheck` schema (`timestamp: str` in
`backend/app/models/schemas.py`). -/
theorem C9_health_check (sessions : List (String × TransferSession))
    (counts : List (String × Int)) :
    dictGet (health_check sessions counts) "status" = some (.jstr "healthy")
    ∧ dictGet (health_check sessions counts) "sessions" =
        some (.jnum sessions.length)
    ∧ ∀ str, dictGet (health_check sessions counts) "timestamp" ≠
        some (.jstr str) := by
  refine ⟨?_, ?_, ?_⟩
  · simp [health_check, dictGet]
  · simp [health_check, dictGet]
  · intro str h
    simp [health_check, dictGet] at h

/-- Witness for C9 at a concrete input (empty registry, empty counts). -/
theorem C9_health_check_witness :
    dictGet (health_check [] []) "status" = some (.jstr "healthy")
    ∧ dictGet (health_check [] []) "timestamp" ≠
        some (.jstr "2024-01-01T00:00:00") := by
  exact ⟨(C9_health_check [] []).1, (C9_health_check [] []).2.2 _⟩

/-! ## Case analysis of `ws_transfer_entry` (helpers for C2, C3, C10) -/

theorem entry_tooMany_iff (st : ServerState) (sid m uid : String) (cid now : Nat) :
    (ws_transfer_entry st sid m uid cid now).2.1 = .tooManyConnections ↔
      5 ≤ getCount st.connection_counts uid := by
  by_cases h5 : 5 ≤ getCount st.connection_counts uid
  · simp [ws_transfer_entry, h5]
  · by_cases hcap : MAX_SESSIONS ≤ st.sessions.length ∧ dictGet st.sessions sid = none
    · simp [ws_transfer_entry, h5, hcap]
    · cases hrole : parseRole m <;> simp [ws_transfer_entry, h5, hcap, hrole]

theorem entry_tooMany_spec (st : ServerState) (sid m uid : String) (cid now : Nat)
    (h5 : 5 ≤ getCount st.connection_counts uid) :
    ws_transfer_entry st sid m uid cid now =
      (st, .tooManyConnections,
       [.statusFrame "error" "Too many connections"]) := by
  simp [ws_transfer_entry, h5]

theorem entry_atCapacity_iff (st : ServerState) (sid m uid : String) (cid now : Nat) :
    (ws_transfer_entry st sid m uid cid now).2.1 = .atCapacity ↔
      (¬ 5 ≤ getCount st.connection_counts uid
        ∧ MAX_SESSIONS ≤ st.sessions.length
        ∧ dictGet st.sessions sid = none) := by
  by_cases h5 : 5 ≤ getCount st.connection_counts uid
  · simp [ws_transfer_entry, h5]
  · by_cases hcap : MAX_SESSIONS ≤ st.sessions.length ∧ dictGet st.sessions sid = none
    · simp [ws_transfer_entry, h5, hcap]
    · cases hrole : parseRole m <;> simp [ws_transfer_entry, h5, hcap, hrole]

theorem entry_capacity_spec (st : ServerState) (sid m uid : String) (cid now : Nat)
    (h5 : ¬ 5 ≤ getCount st.connection_counts uid)
    (hcap : MAX_SESSIONS ≤ st.sessions.length ∧ dictGet st.sessions sid = none) :
    (ws_transfer_entry st sid m uid cid now).2.1 = .atCapacity
    ∧ (ws_transfer_entry st sid m uid cid now).2.2 =
        [.statusFrame "error" "Server at capacity"]
    ∧ (ws_transfer_entry st sid m uid cid now).1.sessions = st.sessions
    ∧ (ws_transfer_entry st sid m uid cid now).1.openConns = st.openConns
    ∧ ∀ v, getCount (ws_transfer_entry st sid m uid cid now).1.connection_counts v =
        getCount st.connection_counts v := by
  refine ⟨?_, ?_, ?_, ?_, ?_⟩
  · simp [ws_transfer_entry, h5, hcap]
  · simp [ws_transfer_entry, h5, hcap]
  · simp [ws_transfer_entry, h5, hcap]
  · simp [ws_transfer_entry, h5, hcap]
  · intro v
    simp only [ws_transfer_entry, h5, if_false, hcap, and_self, if_true]
    by_cases hv : v = uid
    · subst hv
      simp only [getCount_set_self]
      omega
    · simp only [getCount_set_ne _ _ _ _ hv]

theorem entry_proceed_sessions (st : ServerState) (sid m uid : String)
    (cid now : Nat) (h5 : ¬ 5 ≤ getCount st.connection_counts uid)
    (hcap : ¬ (MAX_SESSIONS ≤ st.sessions.length ∧ dictGet st.sessions sid = none)) :
    (ws_transfer_entry st sid m uid cid now).1.sessions =
      dictSet (create_session st.sessions sid now).1 sid
        (update_activity (create_session st.sessions sid now).2 now) := by
  cases hrole : parseRole m <;> simp [ws_transfer_entry, h5, hcap, hrole]

theorem entry_invalid_spec (st : ServerState) (sid m uid : String) (cid now : Nat)
    (h5 : ¬ 5 ≤ getCount st.connection_counts uid)
    (hcap : ¬ (MAX_SESSIONS ≤ st.sessions.length ∧ dictGet st.sessions sid = none))
    (hrole : parseRole m = none) :
    (ws_transfer_entry st sid m uid cid now).2.1 = .invalidMode m
    ∧ (ws_transfer_entry st sid m uid cid now).2.2 =
        [.statusFrame "error" ("Invalid mode: " ++ m)]
    ∧ (ws_transfer_entry st sid m uid cid now).1.openConns = st.openConns
    ∧ ∀ v, getCount (ws_transfer_entry st sid m uid cid now).1.connection_counts v =
        getCount st.connection_counts v := by
  refine ⟨?_, ?_, ?_, ?_⟩
  · simp [ws_transfer_entry, h5, hcap, hrole]
  · simp [ws_transfer_entry, h5, hcap, hrole]
  · simp [ws_transfer_entry, h5, hcap, hrole]
  · intro v
    simp only [ws_transfer_entry, h5, if_false, hcap, if_false, hrole]
    by_cases hv : v = uid
    · subst hv
      simp only [getCount_set_self]
      omega
    · simp only [getCount_set_ne _ _ _ _ hv]

theorem entry_dispatched_spec (st : ServerState) (sid m uid : String)
    (cid now : Nat) (r : Role)
    (h5 : ¬ 5 ≤ getCount st.connection_counts uid)
    (hcap : ¬ (MAX_SESSIONS ≤ st.sessions.length ∧ dictGet st.sessions sid = none))
    (hrole : parseRole m = some r) :
    (ws_transfer_entry st sid m uid cid now).2.1 = .dispatched r
    ∧ (ws_transfer_entry st sid m uid cid now).2.2 = []
    ∧ (ws_transfer_entry st sid m uid cid now).1.openConns =
        st.openConns ++ [(cid, uid)]
    ∧ getCount (ws_transfer_entry st sid m uid cid now).1.connection_counts uid =
        getCount st.connection_counts uid + 1 := by
  refine ⟨?_, ?_, ?_, ?_⟩
  · simp [ws_transfer_entry, h5, hcap, hrole]
  · simp [ws_transfer_entry, h5, hcap, hrole]
  · simp [ws_transfer_entry, h5, hcap, hrole]
  · simp only [ws_transfer_entry, h5, if_false, hcap, if_false, hrole]
    simp only [getCount_set_self]

theorem disconnect_open_spec (st : ServerState) (cid : Nat) (cl : Option String)
    (uid : String) (h : connFind st.openConns cid = some uid) :
    getCount (ws_disconnect st cid cl).connection_counts uid =
      getCount st.connection_counts uid - 1
    ∧ (ws_disconnect st cid cl).openConns = connRemove st.openConns cid := by
  simp only [ws_disconnect, h]
  exact ⟨getCount_set_self _ _ _, trivial⟩

theorem disconnect_closed_spec (st : ServerState) (cid : Nat) (cl : Option String)
    (h : connFind st.openConns cid = none) :
    ws_disconnect st cid cl = st := by
  simp [ws_disconnect, h]

/-- Claim C2: over every trace of connection arrivals and departures,
(1) the per-user counter equals the number of that user's admitted,
still-running handlers, hence (2) it is never negative and (3) it is 0 once
all of the user's connections have closed; (4) an arriving connection is
rejected with the too-many-connections error frame (leaving the state
untouched) precisely when the user's current count is at least 5; the
increment performed on an admitted entry is matched by exactly one decrement:
(5) the capacity-rejection and invalid-mode paths restore every count within
the entry itself, (6) a dispatched handler leaves the count one higher and
registers the open connection, and (7) its eventual return (normal or by
exception) decrements the count by exactly one and deregisters it, while (8)
a return of a connection that is not open changes nothing. -/
theorem C2_throttle :
    (∀ (es : List ServerEvent) (u : String),
      getCount (server_run es).connection_counts u =
        (countOpen (server_run es).openConns u : Int))
    ∧ (∀ (es : List ServerEvent) (u : String),
        0 ≤ getCount (server_run es).connection_counts u)
    ∧ (∀ (es : List ServerEvent) (u : String),
        countOpen (server_run es).openConns u = 0 →
          getCount (server_run es).connection_counts u = 0)
    ∧ (∀ (st : ServerState) (sid m uid : String) (cid now : Nat),
        ((ws_transfer_entry st sid m uid cid now).2.1 = .tooManyConnections
          ∧ (ws_transfer_entry st sid m uid cid now).2.2 =
              [.statusFrame "error" "Too many connections"]
          ∧ (ws_transfer_entry st sid m uid cid now).1 = st)
          ↔ 5 ≤ getCount st.connection_counts uid)
    ∧ (∀ (st : ServerState) (sid m uid : String) (cid now : Nat),
        ((ws_transfer_entry st sid m uid cid now).2.1 = .atCapacity
          ∨ (ws_transfer_entry st sid m uid cid now).2.1 = .invalidMode m) →
        ∀ v, getCount (ws_transfer_entry st sid m uid cid now).1.connection_counts v =
          getCount st.connection_counts v)
    ∧ (∀ (st : ServerState) (sid m uid : String) (cid now : Nat) (r : Role),
        (ws_transfer_entry st sid m uid cid now).2.1 = .dispatched r →
          getCount (ws_transfer_entry st sid m uid cid now).1.connection_counts uid =
            getCount st.connection_counts uid + 1
          ∧ (ws_transfer_entry st sid m uid cid now).1.openConns =
              st.openConns ++ [(cid, uid)])
    ∧ (∀ (st : ServerState) (cid : Nat) (cl : Option String) (uid : String),
        connFind st.openConns cid = some uid →
          getCount (ws_disconnect st cid cl).connection_counts uid =
            getCount st.connection_counts uid - 1
          ∧ (ws_disconnect st cid cl).openConns = connRemove st.openConns cid)
    ∧ (∀ (st : ServerState) (cid : Nat) (cl : Option String),
        connFind st.openConns cid = none → ws_disconnect st cid cl = st) := by
  refine ⟨?_, ?_, ?_, ?_, ?_, ?_, disconnect_open_spec, disconnect_closed_spec⟩
  · exact fun es u => throttleInv_run es u
  · intro es u
    rw [throttleInv_run es u]
    exact Int.natCast_nonneg _
  · intro es u h
    rw [throttleInv_run es u, h]
    rfl
  · intro st sid m uid cid now
    constructor
    · intro h
      exact (entry_tooMany_iff st sid m uid cid now).mp h.1
    · intro h5
      rw [entry_tooMany_spec st sid m uid cid now h5]
      exact ⟨rfl, rfl, rfl⟩
  · intro st sid m uid cid now hor v
    have h5 : ¬ 5 ≤ getCount st.connection_counts uid := by
      intro h5
      rw [entry_tooMany_spec st sid m uid cid now h5] at hor
      simp at hor
    by_cases hcap : MAX_SESSIONS ≤ st.sessions.length ∧ dictGet st.sessions sid = none
    · exact (entry_capacity_spec st sid m uid cid now h5 hcap).2.2.2.2 v
    · cases hrole : parseRole m with
      | none => exact (entry_invalid_spec st sid m uid cid now h5 hcap hrole).2.2.2 v
      | some r =>
        have := (entry_dispatched_spec st sid m uid cid now r h5 hcap hrole).1
        rw [this] at hor
        simp at hor
  · intro st sid m uid cid now r hdis
    have h5 : ¬ 5 ≤ getCount st.connection_counts uid := by
      intro h5
      rw [entry_tooMany_spec st sid m uid cid now h5] at hdis
      simp at hdis
    by_cases hcap : MAX_SESSIONS ≤ st.sessions.length ∧ dictGet st.sessions sid = none
    · rw [(entry_capacity_spec st sid m uid cid now h5 hcap).1] at hdis
      simp at hdis
    · cases hrole : parseRole m with
      | none =>
        rw [(entry_invalid_spec st sid m uid cid now h5 hcap hrole).1] at hdis
        simp at hdis
      | some r2 =>
        have hspec := entry_dispatched_spec st sid m uid cid now r2 h5 hcap hrole
        exact ⟨hspec.2.2.2, hspec.2.2.1⟩

/-- Witness for C2 at a concrete trace: user "u" connects as a sender
(connection id 0) and later disconnects; the counter is back at 0, and the
fresh server rejects no one. -/
theorem C2_throttle_witness :
    getCount (server_run [.connect "s" "sender" "u" 0 0,
      .disconnect 0 (some "s")]).connection_counts "u" = 0
    ∧ ¬ ((ws_transfer_entry {} "s" "sender" "u" 0 0).2.1 = .tooManyConnections
        ∧ (ws_transfer_entry {} "s" "sender" "u" 0 0).2.2 =
            [.statusFrame "error" "Too many connections"]
        ∧ (ws_transfer_entry {} "s" "sender" "u" 0 0).1 = {}) := by
  constructor
  · exact C2_throttle.2.2.1 [.connect "s" "sender" "u" 0 0,
      .disconnect 0 (some "s")] "u" (by decide)
  · intro h
    have := (C2_throttle.2.2.2.1 {} "s" "sender" "u" 0 0).mp h
    revert this
    decide

/-- Claim C3: (1) the registry never exceeds `MAX_SESSIONS` entries along any
trace; (2) `create_session` on an existing id returns the stored session and
leaves the registry untouched, regardless of capacity; (3) the entry path
reports at-capacity exactly when the connection was admitted by the throttle,
the registry is full, and the id is new; (4) on that rejection the client is
sent the server-at-capacity error frame, the registry is unchanged, and every
throttle count is restored; for an admitted connection, (5) an existing id is
always re-used (its stored session merely gets a fresh `last_activity`), and
(6) a new id is inserted precisely when the registry is strictly below
`MAX_SESSIONS`. -/
theorem C3_capacity :
    (∀ es : List ServerEvent, (server_run es).sessions.length ≤ MAX_SESSIONS)
    ∧ (∀ (sessions : List (String × TransferSession)) (sid : String)
        (now : Nat) (s : TransferSession), dictGet sessions sid = some s →
          create_session sessions sid now = (sessions, s))
    ∧ (∀ (st : ServerState) (sid m uid : String) (cid now : Nat),
        (ws_transfer_entry st sid m uid cid now).2.1 = .atCapacity ↔
          (¬ 5 ≤ getCount st.connection_counts uid
            ∧ MAX_SESSIONS ≤ st.sessions.length
            ∧ dictGet st.sessions sid = none))
    ∧ (∀ (st : ServerState) (sid m uid : String) (cid now : Nat),
        (ws_transfer_entry st sid m uid cid now).2.1 = .atCapacity →
          (ws_transfer_entry st sid m uid cid now).2.2 =
            [.statusFrame "error" "Server at capacity"]
          ∧ (ws_transfer_entry st sid m uid cid now).1.sessions = st.sessions
          ∧ ∀ v, getCount
              (ws_transfer_entry st sid m uid cid now).1.connection_counts v =
              getCount st.connection_counts v)
    ∧ (∀ (st : ServerState) (sid m uid : String) (cid now : Nat)
        (s : TransferSession), ¬ 5 ≤ getCount st.connection_counts uid →
          dictGet st.sessions sid = some s →
          dictGet (ws_transfer_entry st sid m uid cid now).1.sessions sid =
            some (update_activity s now))
    ∧ (∀ (st : ServerState) (sid m uid : String) (cid now : Nat),
        ¬ 5 ≤ getCount st.connection_counts uid →
        dictGet st.sessions sid = none →
        ((dictGet (ws_transfer_entry st sid m uid cid now).1.sessions sid).isSome ↔
          st.sessions.length < MAX_SESSIONS)) := by
  refine ⟨sessionsBound_run, ?_, entry_atCapacity_iff, ?_, ?_, ?_⟩
  · intro sessions sid now s h
    simp [create_session, h]
  · intro st sid m uid cid now hout
    obtain ⟨h5, hcap⟩ := (entry_atCapacity_iff st sid m uid cid now).mp hout
    have hspec := entry_capacity_spec st sid m uid cid now h5 hcap
    exact ⟨hspec.2.1, hspec.2.2.1, hspec.2.2.2.2⟩
  · intro st sid m uid cid now s h5 hs
    have hcap : ¬ (MAX_SESSIONS ≤ st.sessions.length
        ∧ dictGet st.sessions sid = none) := by
      intro hc
      rw [hs] at hc
      exact Option.noConfusion hc.2
    rw [entry_proceed_sessions st sid m uid cid now h5 hcap]
    simp only [create_session, hs]
    exact dictGet_set_self _ _ _
  · intro st sid m uid cid now h5 hn
    by_cases hlt : st.sessions.length < MAX_SESSIONS
    · have hcap : ¬ (MAX_SESSIONS ≤ st.sessions.length
          ∧ dictGet st.sessions sid = none) := by
        intro hc
        omega
      rw [entry_proceed_sessions st sid m uid cid now h5 hcap]
      simp only [create_session, hn]
      rw [dictGet_set_self]
      simp [hlt]
    · have hcap : MAX_SESSIONS ≤ st.sessions.length
          ∧ dictGet st.sessions sid = none := ⟨by omega, hn⟩
      have hspec := entry_capacity_spec st sid m uid cid now h5 hcap
      rw [hspec.2.2.1, hn]
      simp [hlt]

/-- Witness for C3 at concrete inputs: an existing id is returned as-is, and
an admitted connection to a fresh server inserts its session. -/
theorem C3_capacity_witness :
    create_session [("a", newSession "a" 0)] "a" 5 =
      ([("a", newSession "a" 0)], newSession "a" 0)
    ∧ (dictGet (ws_transfer_entry {} "b" "peer" "u" 1 2).1.sessions "b").isSome := by
  constructor
  · exact C3_capacity.2.1 [("a", newSession "a" 0)] "a" 5 (newSession "a" 0)
      (by decide)
  · exact (C3_capacity.2.2.2.2.2 {} "b" "peer" "u" 1 2 (by decide)
      (by decide)).mpr (by decide)

/-- Claim C5: the sender handler polls at 1-second granularity for at most
300 seconds, updating `last_activity` on each poll.  If no receiver is
observed at any poll through second 300, it sends exactly the waiting frame
followed by the receiver-timeout error frame, removes the session from the
registry, and returns without entering the streaming loop.  If a receiver is
first observed at poll `k ≤ 300`, it instead sets `is_active = true` and
`start_time`, stores the receiver, and sends the ready frame carrying the
chat history, entering the streaming loop. -/
theorem C5_rendezvous (sessions : List (String × TransferSession))
    (sid : String) (s : TransferSession) (w : Nat) (recv : Nat → Option Nat)
    (start : Nat) :
    ((∀ j, j ≤ 300 → recv j = none) →
      handle_sender_wait sessions sid s w recv start =
        (remove_session sessions sid,
         { s with sender := some w, last_activity := start + 300 },
         [.waitingFrame sid, .statusFrame "error" "Receiver timeout"], false))
    ∧ (∀ (k r : Nat), k ≤ 300 → (∀ j, j < k → recv j = none) →
        recv k = some r →
        handle_sender_wait sessions sid s w recv start =
          (dictSet sessions sid
            { s with
                sender := some w,
                last_activity := if k = 0 then s.last_activity else start + k,
                receiver := some r,
                is_active := true,
                start_time := some (start + k) },
           { s with
               sender := some w,
               last_activity := if k = 0 then s.last_activity else start + k,
               receiver := some r,
               is_active := true,
               start_time := some (start + k) },
           [.waitingFrame sid, .readyFrame s.messages], true)) := by
  constructor
  · intro h
    have hk : rendezvous_poll recv 0 300 = 300 := by
      have := rendezvous_poll_of_none recv 300 0
        (fun j h1 h2 => h j (by omega))
      simpa using this
    have h300 : recv 300 = none := h 300 le_rfl
    simp [handle_sender_wait, hk, h300]
  · intro k r hk300 hnone hsome
    have hk : rendezvous_poll recv 0 300 = k := by
      have := rendezvous_poll_first recv 300 0 k (Nat.zero_le _) (by omega)
        (fun j h1 h2 => hnone j h2) (by rw [hsome]; rfl)
      simpa using this
    by_cases hk0 : k = 0
    · subst hk0
      simp [handle_sender_wait, hk, hsome]
    · simp [handle_sender_wait, hk, hsome, hk0]

/-- Witness for C5 at concrete inputs: with no receiver ever, the timeout
path fires (session removed, streaming not entered); with a receiver first
observed at poll 2, the ready path fires. -/
theorem C5_rendezvous_witness :
    handle_sender_wait [("t1", newSession "t1" 3)] "t1" (newSession "t1" 3) 4
      (fun _ => none) 5 =
      ([], { newSession "t1" 3 with sender := some 4, last_activity := 305 },
       [.waitingFrame "t1", .statusFrame "error" "Receiver timeout"], false)
    ∧ handle_sender_wait [("t1", newSession "t1" 3)] "t1" (newSession "t1" 3) 4
      (fun j => if 2 ≤ j then some 9 else none) 5 =
      (dictSet [("t1", newSession "t1" 3)] "t1"
        { newSession "t1" 3 with
            sender := some 4,
            last_activity := 7,
            receiver := some 9,
            is_active := true,
            start_time := some 7 },
       { newSession "t1" 3 with
           sender := some 4,
           last_activity := 7,
           receiver := some 9,
           is_active := true,
           start_time := some 7 },
       [.waitingFrame "t1", .readyFrame []], true) := by
  constructor
  · have h := (C5_rendezvous [("t1", newSession "t1" 3)] "t1"
      (newSession "t1" 3) 4 (fun _ => none) 5).1 (fun j hj => rfl)
    rw [h]
    decide
  · have h := (C5_rendezvous [("t1", newSession "t1" 3)] "t1"
      (newSession "t1" 3) 4 (fun j => if 2 ≤ j then some 9 else none) 5).2
      2 9 (by decide) (by decide) (by decide)
    rw [h]
    decide

/-- Claim C6, counterexample.  The claim says a text frame that fails JSON
parsing is dropped and the handler continues with session state unchanged.
Concretely, in sender mode with session "s1" registered: `json.loads`
raises, the streaming loop's `try` (which catches only `WebSocketDisconnect`)
does not stop it, the `finally` teardown removes "s1" from the registry, and
`ws_transfer` sends the error frame and closes the socket — the handler does
not continue. -/
theorem C6_counterexample :
    (sender_on_text [("s1", newSession "s1" 0)] "s1" (newSession "s1" 0)
      (.malformed "Expecting value") 7 "T").sessions = []
    ∧ (sender_on_text [("s1", newSession "s1" 0)] "s1" (newSession "s1" 0)
      (.malformed "Expecting value") 7 "T").handlerContinues = false
    ∧ (sender_on_text [("s1", newSession "s1" 0)] "s1" (newSession "s1" 0)
      (.malformed "Expecting value") 7 "T").connectionClosed = true := by
  decide

/-- Claim C6 as amended: a malformed text frame is not dropped — the JSON
parse failure propagates out of the sender streaming loop, so the handler
stops, the connection is closed after a best-effort
`status:"error"/message:str(e)` frame, and the sender teardown removes the
session from the registry.  Well-formed control frames (chat, pong, ...) do
leave the handler running with the connection open. -/
theorem C6_amended :
    ∀ (sessions : List (String × TransferSession)) (sid : String)
      (s : TransferSession) (err : String) (now : Nat) (utcnow : String),
      (sender_on_text sessions sid s (.malformed err) now utcnow).handlerContinues
        = false
      ∧ (sender_on_text sessions sid s (.malformed err) now utcnow).connectionClosed
          = true
      ∧ (sender_on_text sessions sid s (.malformed err) now utcnow).framesToSender
          = [.statusFrame "error" err]
      ∧ (sender_on_text sessions sid s (.malformed err) now utcnow).sessions
          = remove_session sessions sid
      ∧ ((sessions.map Prod.fst).Nodup →
          dictGet (sender_on_text sessions sid s
            (.malformed err) now utcnow).sessions sid = none)
      ∧ (∀ text : List Char,
          (sender_on_text sessions sid s (.chatText text) now utcnow).handlerContinues
            = true
          ∧ (sender_on_text sessions sid s (.chatText text) now utcnow).connectionClosed
              = false)
      ∧ (sender_on_text sessions sid s .pongText now utcnow).handlerContinues
          = true := by
  intro sessions sid s err now utcnow
  refine ⟨rfl, rfl, rfl, rfl, ?_, fun text => ⟨rfl, rfl⟩, rfl⟩
  intro hnd
  show dictGet (remove_session sessions sid) sid = none
  exact dictGet_remove_self sessions sid hnd

/-- Witness for the amended C6 at a concrete input. -/
theorem C6_amended_witness :
    dictGet (sender_on_text [("s2", newSession "s2" 0)] "s2" (newSession "s2" 0)
      (.malformed "bad json") 1 "T").sessions "s2" = none := by
  exact (C6_amended [("s2", newSession "s2" 0)] "s2" (newSession "s2" 0)
    "bad json" 1 "T").2.2.2.2.1 (by decide)

/-- Claim C8, counterexample.  The claim says every evicted session has all
attached endpoints — including every peer endpoint — closed.  Concretely:
session "p" is idle for 2000 s > SESSION_TIMEOUT with one attached peer
(endpoint 42); the sweeper evicts it but its closed-endpoint list is empty —
`cleanup_stale_sessions` only ever closes `session.sender` and
`session.receiver`, never `session.peers`. -/
theorem C8_counterexample :
    cleanup_stale_sessions
      [("p", { newSession "p" 0 with peers := [⟨"A", 42⟩] })] 2000 =
      ([], []) := by
  decide

/-- Claim C8 as amended: after a sweeper pass at time `now`, exactly the
sessions with `now - last_activity > SESSION_TIMEOUT` are removed (the
others remain, unchanged and in order), and the endpoints closed are exactly
the `sender` and `receiver` slots of the evicted sessions — peer endpoints
are never closed. -/
theorem C8_amended :
    ∀ (sessions : List (String × TransferSession)) (now : Nat),
      (sessions.map Prod.fst).Nodup →
      (cleanup_stale_sessions sessions now).1 =
        sessions.filter (fun p => !(isStale now p.2))
      ∧ (cleanup_stale_sessions sessions now).2 =
          closedEndpoints (sessions.filter fun p => isStale now p.2)
      ∧ ∀ e ∈ (cleanup_stale_sessions sessions now).2,
          ∃ p ∈ sessions, isStale now p.2 = true ∧
            (p.2.sender = some e ∨ p.2.receiver = some e) := by
  intro sessions now hnd
  have hspec := cleanup_spec sessions now hnd
  refine ⟨by rw [hspec], by rw [hspec], ?_⟩
  intro e he
  rw [hspec] at he
  obtain ⟨p, hp, hor⟩ := mem_closedEndpoints e _ he
  have hmem := List.mem_filter.mp hp
  exact ⟨p, hmem.1, hmem.2, hor⟩

/-- Witness for the amended C8 at a concrete input: a fresh session survives
the sweep, a stale one is evicted with its sender endpoint (7) closed. -/
theorem C8_amended_witness :
    (cleanup_stale_sessions [("live", newSession "live" 1000),
      ("old", { newSession "old" 0 with sender := some 7 })] 2000).1 =
      [("live", newSession "live" 1000)]
    ∧ (cleanup_stale_sessions [("live", newSession "live" 1000),
      ("old", { newSession "old" 0 with sender := some 7 })] 2000).2 = [7] := by
  have h := C8_amended [("live", newSession "live" 1000),
    ("old", { newSession "old" 0 with sender := some 7 })] 2000 (by decide)
  refine ⟨?_, ?_⟩
  · rw [h.1]
    decide
  · rw [h.2.1]
    decide

/-- For any admitted, capacity-passing entry, the registry afterwards holds a
session at `session_id` whose `last_activity` is the entry time, and the
registry's keys stay duplicate-free. -/
theorem entry_proceed_session_facts (st : ServerState) (sid m uid : String)
    (cid now : Nat) (h5 : ¬ 5 ≤ getCount st.connection_counts uid)
    (hcap : ¬ (MAX_SESSIONS ≤ st.sessions.length ∧ dictGet st.sessions sid = none))
    (hnd : (st.sessions.map Prod.fst).Nodup) :
    ∃ s', dictGet (ws_transfer_entry st sid m uid cid now).1.sessions sid = some s'
      ∧ s'.last_activity = now
      ∧ ((ws_transfer_entry st sid m uid cid now).1.sessions.map Prod.fst).Nodup := by
  have hsess := entry_proceed_sessions st sid m uid cid now h5 hcap
  cases hg : dictGet st.sessions sid with
  | some s0 =>
    have hS : (ws_transfer_entry st sid m uid cid now).1.sessions =
        dictSet st.sessions sid (update_activity s0 now) := by
      rw [hsess]
      simp [create_session, hg]
    refine ⟨update_activity s0 now, ?_, rfl, ?_⟩
    · rw [hS]
      exact dictGet_set_self _ _ _
    · rw [hS, keys_dictSet_of_isSome _ _ _ (by rw [hg]; rfl)]
      exact hnd
  | none =>
    have hS : (ws_transfer_entry st sid m uid cid now).1.sessions =
        st.sessions ++ [(sid, update_activity (newSession sid now) now)] := by
      rw [hsess]
      simp only [create_session, hg]
      exact dictSet_append_self _ _ _ _ hg
    refine ⟨update_activity (newSession sid now) now, ?_, rfl, ?_⟩
    · rw [hS, dictGet_append_of_none _ _ _ hg]
      simp [dictGet]
    · rw [hS, List.map_append]
      refine List.Nodup.append hnd (List.nodup_singleton _) ?_
      intro a ha hb
      simp only [List.map_cons, List.map_nil, List.mem_singleton] at hb
      rw [hb] at ha
      exact (dictGet_eq_none_iff st.sessions sid).mp hg ha

/-- Claim C10: when an admitted, capacity-passing connection arrives with an
unrecognized role, `ws_transfer` has already created (or retained) the
session — with `last_activity` set to the entry time — before sending the
invalid-mode error frame; the error path and the `finally` teardown restore
every throttle count but never remove the session, so it keeps occupying a
registry slot; a sweeper pass removes it exactly when its idle age exceeds
`SESSION_TIMEOUT`, and leaves it in place until then. -/
theorem C10_invalid_mode (st : ServerState) (sid mode uid : String)
    (cid now : Nat)
    (hrole : parseRole mode = none)
    (h5 : ¬ 5 ≤ getCount st.connection_counts uid)
    (hcap : ¬ (MAX_SESSIONS ≤ st.sessions.length ∧ dictGet st.sessions sid = none))
    (hnd : (st.sessions.map Prod.fst).Nodup) :
    (ws_transfer_entry st sid mode uid cid now).2.1 = .invalidMode mode
    ∧ (ws_transfer_entry st sid mode uid cid now).2.2 =
        [.statusFrame "error" ("Invalid mode: " ++ mode)]
    ∧ (∃ s', dictGet (ws_transfer_entry st sid mode uid cid now).1.sessions sid
        = some s' ∧ s'.last_activity = now)
    ∧ (∀ v, getCount
        (ws_transfer_entry st sid mode uid cid now).1.connection_counts v =
        getCount st.connection_counts v)
    ∧ (∀ now2, now2 - now ≤ SESSION_TIMEOUT →
        dictGet (cleanup_stale_sessions
          (ws_transfer_entry st sid mode uid cid now).1.sessions now2).1 sid =
          dictGet (ws_transfer_entry st sid mode uid cid now).1.sessions sid)
    ∧ (∀ now2, SESSION_TIMEOUT < now2 - now →
        dictGet (cleanup_stale_sessions
          (ws_transfer_entry st sid mode uid cid now).1.sessions now2).1 sid =
          none) := by
  obtain ⟨s', hget, hact, hndS⟩ :=
    entry_proceed_session_facts st sid mode uid cid now h5 hcap hnd
  have hspec := entry_invalid_spec st sid mode uid cid now h5 hcap hrole
  refine ⟨hspec.1, hspec.2.1, ⟨s', hget, hact⟩, hspec.2.2.2, ?_, ?_⟩
  · intro now2 hle
    have hclean := cleanup_spec _ now2 hndS
    rw [hclean]
    show dictGet (List.filter _ _) sid = _
    rw [dictGet_filter_of_some (fun x => !(isStale now2 x)) _ sid s' hndS hget,
      hget]
    have hstale : isStale now2 s' = false := by
      rw [isStale, hact]
      simp only [decide_eq_false_iff_not]
      exact not_lt.mpr hle
    simp [hstale]
  · intro now2 hgt
    have hclean := cleanup_spec _ now2 hndS
    rw [hclean]
    show dictGet (List.filter _ _) sid = _
    rw [dictGet_filter_of_some (fun x => !(isStale now2 x)) _ sid s' hndS hget]
    have hstale : isStale now2 s' = true := by
      rw [isStale, hact]
      simp only [decide_eq_true_eq]
      exact hgt
    simp [hstale]

/-- Witness for C10 at a concrete input: role "boss" on a fresh server leaves
session "sx" in the registry, and a sweep 1990 s later evicts it. -/
theorem C10_invalid_mode_witness :
    (ws_transfer_entry {} "sx" "boss" "u" 3 10).2.1 = .invalidMode "boss"
    ∧ (dictGet (ws_transfer_entry {} "sx" "boss" "u" 3 10).1.sessions "sx").isSome
    ∧ dictGet (cleanup_stale_sessions
        (ws_transfer_entry {} "sx" "boss" "u" 3 10).1.sessions 2000).1 "sx" =
        none := by
  have h := C10_invalid_mode {} "sx" "boss" "u" 3 10 (by decide) (by decide)
    (by decide) (by decide)
  refine ⟨h.1, ?_, h.2.2.2.2.2 2000 (by decide)⟩
  obtain ⟨s', hget, _⟩ := h.2.2.1
  rw [hget]
  rfl
